import Mathlib

/-!
# Verification of the rcam server operator pipeline

A shallow embedding of `src/rcam/server/operators.py`: the frame-processing
pipeline that sits between a camera device and the publish channel.  Python
dictionaries become association lists over a `Val` value type, stage
generators become explicit step functions threading their latched state,
fallible dictionary accesses become `Except`-valued computations, and the
external primitives (zmq sockets, the JPEG encoder, numpy buffers) are
abstracted to the data the pipeline logic actually inspects.
-/

set_option autoImplicit false

namespace RCam

/-- Values stored in the pipeline's dictionaries (control batches, metadata,
state updates).  Numbers (Python floats and ints that are only compared for
equality or rounded) are rationals; `vn` is used for the integer-typed sizing
controls `Width`/`Height`; `vpair` is the two-tuple used by `ColourGains`;
`vmodeAuto`/`vmodeManual`/`vtriggerStart` are the `libcamera` enum constants
used by the focus stage; `vsize` is the `(width, height)` pair stored under
`ImageSize`. -/
inductive Val where
  | vb (x : Bool)
  | vq (x : Rat)
  | vn (x : Nat)
  | vpair (x y : Rat)
  | vs (x : String)
  | vmodeAuto
  | vmodeManual
  | vtriggerStart
  | vsize (w h : Nat)
deriving DecidableEq, Repr

/-- Python truthiness for the values the operators test with `if v:` /
`x or y`. -/
def Val.truthy : Val → Bool
  | .vb x => x
  | .vq x => x ≠ 0
  | .vn x => x ≠ 0
  | .vpair _ _ => true
  | .vs x => x ≠ ""
  | .vmodeAuto => true
  | .vmodeManual => true
  | .vtriggerStart => true
  | .vsize _ _ => true

/-- Whether a value is the two-tuple shape `ColourGains` unpacks into
(`cur_red_gain, cur_blue_gain = ...`); any other shape raises. -/
def Val.isPair : Val → Bool
  | .vpair _ _ => true
  | _ => false

/-- `d.get(k)` / `d[k]` on a Python dict, embedded as an association list
that never holds duplicate keys (see `alInsert`). -/
def alGet {α : Type} : List (String × α) → String → Option α
  | [], _ => none
  | (k', v) :: rest, k => if k' = k then some v else alGet rest k

/-- `d[k] = v` on a Python dict: overwrite in place if the key exists,
append otherwise (Python dicts keep insertion order). -/
def alInsert {α : Type} : List (String × α) → String → α → List (String × α)
  | [], k, v => [(k, v)]
  | (k', v') :: rest, k, v =>
      if k' = k then (k, v) :: rest else (k', v') :: alInsert rest k v

/-- A Python dict from control/metadata names to values. -/
abbrev Dict := List (String × Val)

/-- `d.update(m)`: insert every entry of `m` into `d`, later keys
overwriting earlier ones. -/
def alUpdate (d m : Dict) : Dict :=
  m.foldl (fun acc kv => alInsert acc kv.1 kv.2) d

/-- `{ k: d[k] for k in keys & d.keys() }` with a fixed iteration order over
`keys` (the Python set-intersection iteration order is unspecified; only the
key set matters to the pipeline). -/
def selectKeys (keys : List String) (d : Dict) : Dict :=
  keys.filterMap (fun k => (alGet d k).map (fun v => (k, v)))

/-- Unguarded dict lookup `d[k]`: raises `KeyError` when the key is absent. -/
def dget (d : Dict) (k : String) : Except Unit Val :=
  match alGet d k with
  | some v => Except.ok v
  | none => Except.error ()

instance instDecEqExcept {ε α : Type} [DecidableEq ε] [DecidableEq α] :
    DecidableEq (Except ε α) := fun a b =>
  match a, b with
  | Except.error x, Except.error y =>
      if h : x = y then Decidable.isTrue (by rw [h])
      else Decidable.isFalse (by intro hc; cases hc; exact h rfl)
  | Except.error _, Except.ok _ => Decidable.isFalse (by intro hc; cases hc)
  | Except.ok _, Except.error _ => Decidable.isFalse (by intro hc; cases hc)
  | Except.ok x, Except.ok y =>
      if h : x = y then Decidable.isTrue (by rw [h])
      else Decidable.isFalse (by intro hc; cases hc; exact h rfl)

/-- `s.endswith(suffix)`, computed on the character lists (the `String`
byte-position primitives do not reduce inside the kernel). -/
def strEndsWith (s suffix : String) : Bool :=
  suffix.data == s.data.drop (s.data.length - suffix.data.length)

/-- A numpy array as the geometry stages see it: a height x width pixel grid
(the channel axis is untouched by every operator), together with the offset
of the view into the buffer it was sliced from.  `slice` is
`a[y0:y1, x0:x1, :]` for in-bounds indices. -/
structure NDImage where
  h : Nat
  w : Nat
  oy : Nat := 0
  ox : Nat := 0
deriving DecidableEq, Repr

def NDImage.slice (img : NDImage) (y0 y1 x0 x1 : Nat) : NDImage :=
  ⟨y1 - y0, x1 - x0, img.oy + y0, img.ox + x0⟩

/-- The per-buffer entry the capture stage stores under `item['main']` /
`item['raw']`. -/
structure ImgEntry where
  image : NDImage
  format : String
  framesize : Nat
  size : Nat × Nat
  stride : Nat
deriving DecidableEq, Repr

/-- The frame record flowing down the pipeline.  The Python code uses a
single dict; the fixed keys `idx`, `controls`, `metadata`, `jpeg` become
fields, and the per-buffer keys (`main`, `raw`) become the `images`
association list, so that `'raw' in item` is membership in `images`. -/
structure Item where
  idx : Nat
  controls : Dict
  metadata : Dict
  images : List (String × ImgEntry)
  jpeg : Bool
deriving DecidableEq, Repr

def imgGet (item : Item) (k : String) : Option ImgEntry :=
  alGet item.images k

/-- `image_key = 'raw' if 'raw' in item else 'main'`. -/
def activeKey (item : Item) : String :=
  if (imgGet item "raw").isSome then "raw" else "main"

/-- `item[image_key]['image'] = new`: replace the pixel buffer of the image
entry `e` stored under `k` in place (keys are unique, and `alInsert`
overwrites the existing slot without moving it). -/
def setImage (item : Item) (k : String) (e : ImgEntry) (img : NDImage) : Item :=
  { item with images := alInsert item.images k { e with image := img } }

/-! ## Control source (`control`, operators.py lines 30-44) -/

/-- A fresh frame record with the next ordinal and the drained control
batch. -/
def mkItem (i : Nat) (msgs : List Dict) : Item :=
  { idx := i
    controls := msgs.foldl alUpdate []
    metadata := []
    images := []
    jpeg := false }

/-- The control source from ordinal `i` on: one item per inbound drain
(frame `n` receives the list of control messages that arrived since frame
`n - 1`; merging later keys over earlier ones is `alUpdate`). -/
def controlFrom (i : Nat) : List (List Dict) → List Item
  | [] => []
  | msgs :: rest => mkItem i msgs :: controlFrom (i + 1) rest

def controlSource (msgss : List (List Dict)) : List Item :=
  controlFrom 0 msgss

/-! ## Focus stage (`focus`, operators.py lines 79-123) -/

/-- `mdata.get('AfState', False) or mdata.get('AfMode', False)`: the focus
capability probe; Python `or` returns its first truthy operand. -/
def focusInit (probe : Dict) : Val :=
  let a := (alGet probe "AfState").getD (Val.vb false)
  if a.truthy then a else (alGet probe "AfMode").getD (Val.vb false)

/-- The one-off `set_controls` issued before the frame loop when the device
is focus-capable: auto mode plus an immediate trigger. -/
def focusInitCalls (canFocus : Val) : List Dict :=
  if canFocus.truthy then
    [[("AfMode", Val.vmodeAuto), ("AfTrigger", Val.vtriggerStart)]]
  else []

/-- One iteration of the `focus` frame loop: returns the new latched
`af_enable`, the yielded item, and the `set_controls` calls issued (zero or
one). -/
def focusStep (canFocus : Val) (af : Val) (item : Item) :
    Val × Item × List Dict :=
  let ctrls := item.controls
  let lc0 : Dict := []
  let afLc1 :=
    match alGet ctrls "AfEnable" with
    | some v =>
        if v.truthy then
          (v, alInsert (alInsert lc0 "AfMode" Val.vmodeAuto) "AfTrigger" Val.vtriggerStart)
        else
          (Val.vb false, alInsert lc0 "AfMode" Val.vmodeManual)
    | none => (af, lc0)
  let lc2 :=
    if ((alGet ctrls "AfTrigger").getD (Val.vb false)).truthy then
      alInsert afLc1.2 "AfTrigger" Val.vtriggerStart
    else afLc1.2
  let afLc3 :=
    match alGet ctrls "LensPosition" with
    | some lp =>
        (Val.vb false, alInsert (alInsert lc2 "AfMode" Val.vmodeManual) "LensPosition" lp)
    | none => (afLc1.1, lc2)
  let calls := if canFocus.truthy ∧ afLc3.2 ≠ [] then [afLc3.2] else []
  let item' :=
    if canFocus.truthy then
      { item with metadata := alInsert item.metadata "AfEnable" afLc3.1 }
    else item
  (afLc3.1, item', calls)

/-! ## White-balance and exposure stages (operators.py lines 126-162) -/

/-- One iteration of the `whitebalance` frame loop. -/
def wbStep (awb : Val) (item : Item) : Val × Item × List Dict :=
  let lc := selectKeys ["AwbEnable", "ColourGains"] item.controls
  let calls := if lc ≠ [] then [lc] else []
  let awb' := (alGet lc "AwbEnable").getD awb
  (awb', { item with metadata := alInsert item.metadata "AwbEnable" awb' }, calls)

/-- One iteration of the `exposure` frame loop. -/
def expStep (ae : Val) (item : Item) : Val × Item × List Dict :=
  let lc := selectKeys ["AeEnable", "AnalogueGain", "ExposureTime"] item.controls
  let calls := if lc ≠ [] then [lc] else []
  let ae' := (alGet lc "AeEnable").getD ae
  (ae', { item with metadata := alInsert item.metadata "AeEnable" ae' }, calls)

/-- Run a stateful stage over a stream of items, collecting the yielded
items and the device control calls issued. -/
def runFold {σ : Type} (step : σ → Item → σ × Item × List Dict) (s : σ) :
    List Item → σ × List Item × List Dict
  | [] => (s, [], [])
  | i :: rest =>
      let r1 := step s i
      let r2 := runFold step r1.1 rest
      (r2.1, r1.2.1 :: r2.2.1, r1.2.2 ++ r2.2.2)

/-! ## Capture stage (`capture`, operators.py lines 47-76) -/

/-- One entry of `camera.camera_config`: the active output configuration of
a logical buffer. -/
structure CamCfg where
  size : Nat × Nat
  format : String
  framesize : Nat
  stride : Nat
deriving DecidableEq, Repr

/-- The static camera data the capture stage reads: the device model and the
per-buffer output configurations. -/
structure Camera where
  model : String
  config : List (String × CamCfg)
deriving DecidableEq, Repr

def cfgGet (cam : Camera) : String → Option CamCfg :=
  alGet cam.config

/-- The `image_dtypes` format table: element width in bytes of the numpy
dtype each pixel format is viewed as (lookup raises `KeyError` on a format
outside the table). -/
def dtypeWidth : String → Option Nat
  | "RGB888" => some 1
  | "BGR888" => some 1
  | "SBGGR10" => some 2
  | "SBGGR12" => some 2
  | "SBGGR16" => some 2
  | "SGRBG16" => some 2
  | "SGBRG16" => some 2
  | "SRGGB16" => some 2
  | _ => none

/-- What one completed `camera.wait(job)` hands back: the device-reported
capture metadata and the pixel buffers, aligned with the requested `arrays`.
The numpy `.view(dtype)` element reinterpretation is an external primitive;
the geometry the pipeline tracks is the buffer as delivered. -/
structure FrameIn where
  meta : Dict
  bufs : List NDImage
deriving DecidableEq, Repr

/-- The `for idx, array in enumerate(arrays)` loop building the per-buffer
image entries (`item[array] = {...}`).  Errors when a buffer's
configuration is missing, its format is outside `image_dtypes`, or the
device returned fewer buffers than requested. -/
def buildEntries (cam : Camera) : List String → List NDImage →
    Except Unit (List (String × ImgEntry))
  | [], _ => Except.ok []
  | _ :: _, [] => Except.error ()
  | a :: as, buf :: bufs =>
      match cfgGet cam a with
      | none => Except.error ()
      | some cfg =>
          match dtypeWidth cfg.format with
          | none => Except.error ()
          | some _ =>
              match buildEntries cam as bufs with
              | Except.error e => Except.error e
              | Except.ok rest =>
                  Except.ok ((a, ⟨buf, cfg.format, cfg.framesize, cfg.size, cfg.stride⟩) :: rest)

/-- One iteration of the `capture` frame loop: consume the next completed
device result, attach metadata (device metadata plus `CameraModel` and
`ImageSize`) and the per-buffer image entries.  Note the source computes
`image_key = 'raw' if 'raw' in item else 'main'` *before* any image entry
has been attached to the item. -/
def captureStep (cam : Camera) (arrays : List String) :
    List FrameIn → Item → Except Unit (List FrameIn × Item)
  | [], _ => Except.error ()
  | f :: fs, item =>
      let md1 := alInsert f.meta "CameraModel" (Val.vs cam.model)
      let ik := if (imgGet item "raw").isSome then "raw" else "main"
      match cfgGet cam ik with
      | none => Except.error ()
      | some cfg =>
          let md2 := alInsert md1 "ImageSize" (Val.vsize cfg.size.1 cfg.size.2)
          match buildEntries cam arrays f.bufs with
          | Except.error e => Except.error e
          | Except.ok entries =>
              Except.ok (fs,
                { item with
                    metadata := md2
                    images := entries.foldl (fun acc kv => alInsert acc kv.1 kv.2) item.images })

/-! ## Geometry stages (`fit_cropped` / `fit_scaled`, operators.py 235-293) -/

/-- `sys.maxsize`: the default "unbounded" target size. -/
def sysMaxsize : Nat := 2 ^ 63 - 1

/-- Latched state of a geometry stage: its enable flag and the last
requested target width/height. -/
structure FitState where
  enabled : Bool
  setW : Nat
  setH : Nat
deriving DecidableEq, Repr

/-- `controls.get(k, default)` for the integer-typed sizing controls. -/
def getNatCtrl (d : Dict) (k : String) (dflt : Nat) : Nat :=
  match alGet d k with
  | some (Val.vn n) => n
  | _ => dflt

/-- One iteration of the `fit_cropped` frame loop.  Errors only on the
unguarded `item[image_key]` access when the stage is enabled and the active
image entry is absent. -/
def fitCroppedStep (st : FitState) (item : Item) : Except Unit (FitState × Item) :=
  let ctrls := item.controls
  let en :=
    match alGet ctrls "FitMode" with
    | some v => decide (v = Val.vs "cropped")
    | none => st.enabled
  let scw := getNatCtrl ctrls "Width" st.setW
  let sch := getNatCtrl ctrls "Height" st.setH
  let st' : FitState := ⟨en, scw, sch⟩
  if en then
    match imgGet item (activeKey item) with
    | none => Except.error ()
    | some e =>
        let iw := e.image.w
        let ih := e.image.h
        let cw := min iw scw
        let ch := min ih sch
        if cw < iw ∨ ch < ih then
          let x0 := (iw - cw) / 2
          let x1 := (iw + cw) / 2
          let y0 := (ih - ch) / 2
          let y1 := (ih + ch) / 2
          Except.ok (st', setImage item (activeKey item) e (e.image.slice y0 y1 x0 x1))
        else Except.ok (st', item)
  else Except.ok (st', item)

/-- `cv2.resize(image, None, fx=scale, fy=scale)`: an external primitive;
modelled as rounding each dimension, yielding a fresh buffer. -/
def resizeImg (img : NDImage) (scale : Rat) : NDImage :=
  ⟨(round (scale * (img.h : Rat))).toNat, (round (scale * (img.w : Rat))).toNat, 0, 0⟩

/-- One iteration of the `fit_scaled` frame loop. -/
def fitScaledStep (st : FitState) (item : Item) : Except Unit (FitState × Item) :=
  let ctrls := item.controls
  let en :=
    match alGet ctrls "FitMode" with
    | some v => decide (v = Val.vs "scaled")
    | none => st.enabled
  let ssw := getNatCtrl ctrls "Width" st.setW
  let ssh := getNatCtrl ctrls "Height" st.setH
  let st' : FitState := ⟨en, ssw, ssh⟩
  if en then
    match imgGet item (activeKey item) with
    | none => Except.error ()
    | some e =>
        let iw := e.image.w
        let ih := e.image.h
        let sw := min iw ssw
        let sh := min ih ssh
        if sw < iw ∨ sh < ih then
          let scale := min ((sw : Rat) / (iw : Rat)) ((sh : Rat) / (ih : Rat))
          Except.ok (st', setImage item (activeKey item) e (resizeImg e.image scale))
        else Except.ok (st', item)
  else Except.ok (st', item)

/-! ## Encode stage (`jpeg_encoder`, operators.py lines 165-179) -/

/-- One iteration of the `jpeg_encoder` frame loop: reads the active image
buffer (unguarded `item[image_key]`) and stores the encoded bytes on the
record (the PIL encoding itself is external; the record tracks that the
`jpeg` key is now present). -/
def encodeStep (item : Item) : Except Unit Item :=
  match imgGet item (activeKey item) with
  | some _ => Except.ok { item with jpeg := true }
  | none => Except.error ()

/-! ## Publisher (`publisher`, operators.py lines 182-232) -/

/-- The publisher's latched copies of the last-published values.  The
integer initializer `exposure_time = 0` and the float `0.0` are both the
rational `0`, matching Python's cross-type numeric equality. -/
structure PubState where
  ag : Val
  et : Val
  lp : Val
  rg : Rat
  bg : Rat
deriving DecidableEq, Repr

def pubInit : PubState := ⟨Val.vq 0, Val.vq 0, Val.vq 0, 0, 0⟩

/-- `round(x, 2)`: the nearest multiple of `1/100`, computed as
`round(100 x) / 100` with `round y = ⌊y + 1/2⌋ = ⌊(200 num + den) / (2 den)⌋`
directly on the reduced fraction.  (Python rounds halves to even; no
tracked behaviour depends on exact half-way cases.) -/
def round2 (x : Rat) : Rat :=
  mkRat (Int.fdiv (200 * x.num + (x.den : Int)) (2 * (x.den : Int))) 100

/-- Drop every metadata key ending in the diagnostic-statistics suffix. -/
def stripStats (d : Dict) : Dict :=
  d.filter (fun kv => !(strEndsWith kv.1 "StatsOutput"))

/-- Modelled from the spec: the two fixed command tags of the publish
channel (`PubSubCommands` lives in `rcam/server/commands.py`, which is not
part of the given sources) — one message kind for the text-encoded metadata
mapping, one for the compressed image bytes, each carrying the frame
ordinal as correlation id. -/
inductive OutMsg where
  | meta (idx : Nat) (payload : Dict)
  | jpeg (idx : Nat)
deriving DecidableEq, Repr

/-- Lines 214-216: the coupled `AnalogueGain` / `ExposureTime` update.  The
`or` short-circuits, and the assignment body re-reads both keys, so a
missing `ExposureTime` raises either in the condition or in the body. -/
def updAget (s : PubState) (md : Dict) (u : Dict) : Except Unit (PubState × Dict) :=
  match alGet md "AnalogueGain" with
  | none => Except.error ()
  | some ag =>
      if ag ≠ s.ag then
        match alGet md "ExposureTime" with
        | none => Except.error ()
        | some et =>
            Except.ok ({ s with ag := ag, et := et },
              alInsert (alInsert u "AnalogueGain" ag) "ExposureTime" et)
      else
        match alGet md "ExposureTime" with
        | none => Except.error ()
        | some et =>
            if et ≠ s.et then
              Except.ok ({ s with ag := ag, et := et },
                alInsert (alInsert u "AnalogueGain" ag) "ExposureTime" et)
            else Except.ok (s, u)

/-- Lines 218-219: the `LensPosition` update — compared with a default of
`0.0`, but re-read unguarded when it differs. -/
def updLens (s : PubState) (md : Dict) (u : Dict) : Except Unit (PubState × Dict) :=
  let cur := (alGet md "LensPosition").getD (Val.vq 0)
  if s.lp ≠ cur then
    match alGet md "LensPosition" with
    | none => Except.error ()
    | some lp => Except.ok ({ s with lp := lp }, alInsert u "LensPosition" lp)
  else Except.ok (s, u)

/-- Lines 221-227: the colour-gain updates, rounded to 2 decimal places.
Unpacking `ColourGains` fails when the value is present but not a pair. -/
def updGains (s : PubState) (md : Dict) (u : Dict) : Except Unit (PubState × Dict) :=
  match (alGet md "ColourGains").getD (Val.vpair 0 0) with
  | Val.vpair r b =>
      let cr := round2 r
      let cb := round2 b
      let su1 := if s.rg ≠ cr then
          ({ s with rg := cr }, alInsert u "RedGain" (Val.vq cr)) else (s, u)
      let su2 := if su1.1.bg ≠ cb then
          ({ su1.1 with bg := cb }, alInsert su1.2 "BlueGain" (Val.vq cb)) else su1
      Except.ok su2
  | _ => Except.error ()

/-- One iteration of the `publisher` frame loop.  Returns the messages sent
on the publish socket (in order, up to the point of any failure) and, when
no lookup failed, the new latched state together with the state-update
message sent back on the control-plane socket (`none` when the delta map
was empty).  `hasJpeg` is the presence of the `jpeg` key on the record; it
is read unguarded after the metadata message has already been sent. -/
def publisherStep (s : PubState) (idx : Nat) (md0 : Dict) (hasJpeg : Bool) :
    List OutMsg × Except Unit (PubState × Option Dict) :=
  let md := stripStats md0
  if hasJpeg then
    ([OutMsg.meta idx md, OutMsg.jpeg idx],
      match updAget s md [] with
      | Except.error e => Except.error e
      | Except.ok (s1, u1) =>
          match updLens s1 md u1 with
          | Except.error e => Except.error e
          | Except.ok (s2, u2) =>
              match updGains s2 md u2 with
              | Except.error e => Except.error e
              | Except.ok (s3, u3) =>
                  Except.ok (s3, if u3.isEmpty then none else some u3))
  else ([OutMsg.meta idx md], Except.error ())

/-- The publisher's state-update traffic over a stream of frame metadata
(every record past the encode stage carries a jpeg): final latched state
plus the number of state-update messages sent. -/
def publishRun (s : PubState) : List Dict → Except Unit (PubState × Nat)
  | [] => Except.ok (s, 0)
  | md :: rest =>
      match (publisherStep s 0 md true).2 with
      | Except.error e => Except.error e
      | Except.ok (s1, u) =>
          match publishRun s1 rest with
          | Except.error e => Except.error e
          | Except.ok (sf, n) => Except.ok (sf, (if u.isSome then 1 else 0) + n)

/-! ## Pipeline assembly -/

/-- Run a stage (as an `Except`-valued step) over a stream of items:
one output per successfully processed input, stopping at the first
failure. -/
def runP {σ : Type} (step : σ → Item → Except Unit (σ × Item)) (s : σ) :
    List Item → Except Unit (σ × List Item)
  | [] => Except.ok (s, [])
  | i :: rest =>
      match step s i with
      | Except.error e => Except.error e
      | Except.ok (s1, i1) =>
          match runP step s1 rest with
          | Except.error e => Except.error e
          | Except.ok (s2, os) => Except.ok (s2, i1 :: os)

def focusStepP (canFocus : Val) (af : Val) (i : Item) : Except Unit (Val × Item) :=
  let r := focusStep canFocus af i
  Except.ok (r.1, r.2.1)

def wbStepP (awb : Val) (i : Item) : Except Unit (Val × Item) :=
  let r := wbStep awb i
  Except.ok (r.1, r.2.1)

def expStepP (ae : Val) (i : Item) : Except Unit (Val × Item) :=
  let r := expStep ae i
  Except.ok (r.1, r.2.1)

def encodeStepP (u : Unit) (i : Item) : Except Unit (Unit × Item) :=
  match encodeStep i with
  | Except.error e => Except.error e
  | Except.ok i' => Except.ok (u, i')

def pubStepP (s : PubState) (i : Item) : Except Unit (PubState × Item) :=
  match (publisherStep s i.idx i.metadata i.jpeg).2 with
  | Except.error e => Except.error e
  | Except.ok (s', _) => Except.ok (s', i)

/-- Modelled from the spec: the pipeline assembly (the server wiring that
chains the operators is not part of the given sources).  Stage order per
§2: Control Source, Capture, Focus, White-Balance, Exposure, the two
mutually-exclusive Geometry stages, Encode, Publisher; each stage pulls
from its predecessor.  The stage bodies themselves are the embedded
operator step functions above. -/
def pipelineRun (cam : Camera) (arrays : List String) (probe : Dict)
    (frames : List FrameIn) (cropEn scaleEn : Bool) (msgss : List (List Dict)) :
    Except Unit (List Item) :=
  let items0 := controlSource msgss
  match runP (captureStep cam arrays) frames items0 with
  | Except.error e => Except.error e
  | Except.ok (_, items1) =>
      let cf := focusInit probe
      match runP (focusStepP cf) cf items1 with
      | Except.error e => Except.error e
      | Except.ok (_, items2) =>
          match runP wbStepP (Val.vb true) items2 with
          | Except.error e => Except.error e
          | Except.ok (_, items3) =>
              match runP expStepP (Val.vb true) items3 with
              | Except.error e => Except.error e
              | Except.ok (_, items4) =>
                  match runP fitCroppedStep ⟨cropEn, sysMaxsize, sysMaxsize⟩ items4 with
                  | Except.error e => Except.error e
                  | Except.ok (_, items5) =>
                      match runP fitScaledStep ⟨scaleEn, sysMaxsize, sysMaxsize⟩ items5 with
                      | Except.error e => Except.error e
                      | Except.ok (_, items6) =>
                          match runP encodeStepP () items6 with
                          | Except.error e => Except.error e
                          | Except.ok (_, items7) =>
                              match runP pubStepP pubInit items7 with
                              | Except.error e => Except.error e
                              | Except.ok (_, items8) => Except.ok items8

/-! ## Association-list lemmas -/

theorem alGet_alInsert_self {α : Type} (d : List (String × α)) (k : String) (v : α) :
    alGet (alInsert d k v) k = some v := by
  induction d with
  | nil => simp [alInsert, alGet]
  | cons kv rest ih =>
      obtain ⟨k', v'⟩ := kv
      by_cases h : k' = k
      · simp [alInsert, h, alGet]
      · simp [alInsert, h, alGet, ih]

theorem alGet_alInsert_ne {α : Type} (d : List (String × α)) (k k' : String) (v : α)
    (h : k ≠ k') : alGet (alInsert d k v) k' = alGet d k' := by
  have h' : ¬ (k' = k) := fun hh => h hh.symm
  induction d with
  | nil => simp [alInsert, alGet, h, h']
  | cons kv rest ih =>
      obtain ⟨k0, v0⟩ := kv
      by_cases h0 : k0 = k
      · simp [alInsert, h0, alGet, h, h']
      · by_cases h1 : k0 = k'
        · simp [alInsert, h0, alGet, h1, h, h']
        · simp [alInsert, h0, alGet, h1, ih]

theorem alGet_selectKeys_none (keys : List String) (d : Dict) (k : String)
    (h : alGet d k = none) : alGet (selectKeys keys d) k = none := by
  induction keys with
  | nil => rfl
  | cons a as ih =>
      simp only [selectKeys, List.filterMap_cons]
      cases hv : alGet d a with
      | none => simpa [selectKeys] using ih
      | some v =>
          by_cases hak : a = k
          · rw [hak, h] at hv; exact absurd hv (by simp)
          · simpa [alGet, hak, selectKeys] using ih

/-! ## Latched enable flags (C3, C4, C8, C10) -/

theorem wbStep_latch (awb : Val) (item : Item)
    (h : alGet item.controls "AwbEnable" = none) : (wbStep awb item).1 = awb := by
  simp [wbStep, alGet_selectKeys_none _ _ _ h]

theorem expStep_latch (ae : Val) (item : Item)
    (h : alGet item.controls "AeEnable" = none) : (expStep ae item).1 = ae := by
  simp [expStep, alGet_selectKeys_none _ _ _ h]

theorem focusStep_latch (cf af : Val) (item : Item)
    (h1 : alGet item.controls "AfEnable" = none)
    (h2 : alGet item.controls "LensPosition" = none) :
    (focusStep cf af item).1 = af := by
  simp [focusStep, h1, h2]

/-- C3's claim is wrong for the focus stage: a batch holding only
`LensPosition` (no `AfEnable`) still flips the latched enable flag. -/
def itemLensOnly : Item :=
  { idx := 0, controls := [("LensPosition", Val.vq 1)],
    metadata := [], images := [], jpeg := false }

/-- Claim C3, counterexample: the Focus stage's latched enable flag changes
on a frame whose control batch omits `AfEnable` — a batch containing only
`LensPosition` forces it from enabled to disabled. -/
theorem latchPersistenceFocusCex :
    alGet itemLensOnly.controls "AfEnable" = none ∧
    (focusStep (Val.vb true) (Val.vb true) itemLensOnly).1 = Val.vb false ∧
    Val.vb false ≠ Val.vb true := by decide

/-- Claim C3 (amended): the White-Balance and Exposure stages' latched
enable flags are unchanged across any frame whose control batch omits the
owning key (`AwbEnable` / `AeEnable`), regardless of which other keys are
present; the Focus stage's flag is unchanged across any frame whose batch
omits both `AfEnable` and `LensPosition`, and changes only on frames
containing one of those two keys. -/
theorem latchPersistence :
    (∀ (awb : Val) (item : Item), alGet item.controls "AwbEnable" = none →
        (wbStep awb item).1 = awb)
    ∧ (∀ (ae : Val) (item : Item), alGet item.controls "AeEnable" = none →
        (expStep ae item).1 = ae)
    ∧ (∀ (cf af : Val) (item : Item), alGet item.controls "AfEnable" = none →
        alGet item.controls "LensPosition" = none →
        (focusStep cf af item).1 = af) :=
  ⟨wbStep_latch, expStep_latch, focusStep_latch⟩

def itemGainsOnly : Item :=
  { idx := 3, controls := [("ColourGains", Val.vpair 1 2), ("AfTrigger", Val.vb true)],
    metadata := [], images := [], jpeg := false }

theorem latchPersistence_witness :
    (alGet itemGainsOnly.controls "AwbEnable" = none ∧
      (wbStep (Val.vb true) itemGainsOnly).1 = Val.vb true) ∧
    (alGet itemGainsOnly.controls "AeEnable" = none ∧
      (expStep (Val.vb false) itemGainsOnly).1 = Val.vb false) ∧
    (alGet itemGainsOnly.controls "AfEnable" = none ∧
      alGet itemGainsOnly.controls "LensPosition" = none ∧
      (focusStep (Val.vb true) (Val.vb true) itemGainsOnly).1 = Val.vb true) :=
  ⟨⟨by decide, latchPersistence.1 (Val.vb true) itemGainsOnly (by decide)⟩,
   ⟨by decide, latchPersistence.2.1 (Val.vb false) itemGainsOnly (by decide)⟩,
   ⟨by decide, by decide,
     latchPersistence.2.2 (Val.vb true) (Val.vb true) itemGainsOnly (by decide) (by decide)⟩⟩

theorem focusStep_stays_disabled (cf : Val) (item : Item)
    (h : alGet item.controls "AfEnable" = none) :
    (focusStep cf (Val.vb false) item).1 = Val.vb false := by
  simp only [focusStep, h]
  cases alGet item.controls "LensPosition" <;> simp

theorem focusStep_metadata (cf af : Val) (item : Item) (hcf : cf.truthy = true) :
    alGet ((focusStep cf af item).2.1).metadata "AfEnable" =
      some (focusStep cf af item).1 := by
  simp only [focusStep, hcf]
  cases alGet item.controls "AfEnable" <;>
    cases alGet item.controls "LensPosition" <;>
      simp [alGet_alInsert_self]

theorem focusRun_disabled (cf : Val) (hcf : cf.truthy = true) (items : List Item)
    (h : ∀ i ∈ items, alGet i.controls "AfEnable" = none) :
    ∀ o ∈ (runFold (focusStep cf) (Val.vb false) items).2.1,
      alGet o.metadata "AfEnable" = some (Val.vb false) := by
  induction items with
  | nil => intro o ho; simp [runFold] at ho
  | cons i rest ih =>
      intro o ho
      simp only [runFold, List.mem_cons] at ho
      rcases ho with ho | ho
      · subst ho
        rw [focusStep_metadata cf _ i hcf,
            focusStep_stays_disabled cf i (h i (by simp))]
      · have hlatch := focusStep_stays_disabled cf i (h i (by simp))
        rw [hlatch] at ho
        exact ih (fun j hj => h j (by simp [hj])) o ho

/-- Claim C4: on a focus-capable device, a frame whose control batch
contains only `LensPosition` makes the `AfEnable` metadata key report
disabled on that frame, and it stays disabled on every subsequent frame
whose batch does not contain `AfEnable` (no other key re-enables it). -/
theorem lensPositionDisables (cf : Val) (hcf : cf.truthy = true) (af : Val)
    (item0 : Item) (lp : Val) (h0 : item0.controls = [("LensPosition", lp)])
    (rest : List Item) (hrest : ∀ i ∈ rest, alGet i.controls "AfEnable" = none) :
    alGet ((focusStep cf af item0).2.1).metadata "AfEnable" = some (Val.vb false) ∧
    ∀ o ∈ (runFold (focusStep cf) (focusStep cf af item0).1 rest).2.1,
      alGet o.metadata "AfEnable" = some (Val.vb false) := by
  have hlatch : (focusStep cf af item0).1 = Val.vb false := by
    simp [focusStep, h0, alGet]
  constructor
  · rw [focusStep_metadata cf af item0 hcf, hlatch]
  · rw [hlatch]
    exact focusRun_disabled cf hcf rest hrest

def itemAfterLens : Item :=
  { idx := 1, controls := [("AfTrigger", Val.vb true)],
    metadata := [], images := [], jpeg := false }

theorem lensPositionDisables_witness :
    ((Val.vb true).truthy = true ∧
      itemLensOnly.controls = [("LensPosition", Val.vq 1)] ∧
      (∀ i ∈ [itemAfterLens], alGet i.controls "AfEnable" = none)) ∧
    (alGet ((focusStep (Val.vb true) (Val.vb true) itemLensOnly).2.1).metadata "AfEnable" =
        some (Val.vb false) ∧
      ∀ o ∈ (runFold (focusStep (Val.vb true))
          (focusStep (Val.vb true) (Val.vb true) itemLensOnly).1 [itemAfterLens]).2.1,
        alGet o.metadata "AfEnable" = some (Val.vb false)) :=
  ⟨⟨by decide, by decide, by decide⟩,
    lensPositionDisables (Val.vb true) (by decide) (Val.vb true) itemLensOnly (Val.vq 1)
      (by decide) [itemAfterLens] (by decide)⟩

theorem focusStep_notCapable (cf af : Val) (item : Item) (h : cf.truthy = false) :
    (focusStep cf af item).2 = (item, []) := by
  simp [focusStep, h]

theorem focusRun_notCapable (cf : Val) (h : cf.truthy = false) (af : Val)
    (items : List Item) :
    (runFold (focusStep cf) af items).2.1 = items ∧
    (runFold (focusStep cf) af items).2.2 = [] := by
  induction items generalizing af with
  | nil => simp [runFold]
  | cons i rest ih =>
      have hstep := focusStep_notCapable cf af i h
      constructor
      · simp only [runFold]
        rw [show (focusStep cf af i).2.1 = i from by rw [hstep]]
        simp [(ih ((focusStep cf af i)).1).1]
      · simp only [runFold]
        rw [show (focusStep cf af i).2.2 = [] from by rw [hstep]]
        simp [(ih ((focusStep cf af i)).1).2]

theorem focusInit_absent (probe : Dict)
    (h1 : alGet probe "AfState" = none) (h2 : alGet probe "AfMode" = none) :
    focusInit probe = Val.vb false := by
  simp [focusInit, h1, h2, Val.truthy]

/-- Claim C8: on a device whose probed metadata reports neither an
auto-focus state nor a mode, the Focus stage issues no device control call
on any frame (neither the start-up call nor per-frame calls), yields every
item unchanged, and never writes the `AfEnable` metadata key — frames whose
metadata lacked the key still lack it. -/
theorem focusUnsupported (probe : Dict)
    (h1 : alGet probe "AfState" = none) (h2 : alGet probe "AfMode" = none)
    (af0 : Val) (items : List Item)
    (hmd : ∀ i ∈ items, alGet i.metadata "AfEnable" = none) :
    focusInitCalls (focusInit probe) = [] ∧
    (runFold (focusStep (focusInit probe)) af0 items).2.2 = [] ∧
    (runFold (focusStep (focusInit probe)) af0 items).2.1 = items ∧
    ∀ o ∈ (runFold (focusStep (focusInit probe)) af0 items).2.1,
      alGet o.metadata "AfEnable" = none := by
  have hcf : (focusInit probe).truthy = false := by
    rw [focusInit_absent probe h1 h2]; rfl
  have hrun := focusRun_notCapable (focusInit probe) hcf af0 items
  refine ⟨?_, hrun.2, hrun.1, ?_⟩
  · simp [focusInitCalls, hcf]
  · rw [hrun.1]; exact hmd

def probeNoFocus : Dict := [("SensorTemperature", Val.vq 42)]

theorem focusUnsupported_witness :
    (alGet probeNoFocus "AfState" = none ∧ alGet probeNoFocus "AfMode" = none ∧
      (∀ i ∈ [itemLensOnly, itemGainsOnly], alGet i.metadata "AfEnable" = none)) ∧
    (focusInitCalls (focusInit probeNoFocus) = [] ∧
      (runFold (focusStep (focusInit probeNoFocus)) (focusInit probeNoFocus)
        [itemLensOnly, itemGainsOnly]).2.2 = [] ∧
      (runFold (focusStep (focusInit probeNoFocus)) (focusInit probeNoFocus)
        [itemLensOnly, itemGainsOnly]).2.1 = [itemLensOnly, itemGainsOnly] ∧
      ∀ o ∈ (runFold (focusStep (focusInit probeNoFocus)) (focusInit probeNoFocus)
        [itemLensOnly, itemGainsOnly]).2.1, alGet o.metadata "AfEnable" = none) :=
  ⟨⟨by decide, by decide, by decide⟩,
    focusUnsupported probeNoFocus (by decide) (by decide) (focusInit probeNoFocus)
      [itemLensOnly, itemGainsOnly] (by decide)⟩

theorem wbStep_metadata (awb : Val) (item : Item) :
    alGet ((wbStep awb item).2.1).metadata "AwbEnable" = some (wbStep awb item).1 := by
  simp [wbStep, alGet_alInsert_self]

theorem expStep_metadata (ae : Val) (item : Item) :
    alGet ((expStep ae item).2.1).metadata "AeEnable" = some (expStep ae item).1 := by
  simp [expStep, alGet_alInsert_self]

theorem wbRun_keeps (awb : Val) (items : List Item)
    (h : ∀ i ∈ items, alGet i.controls "AwbEnable" = none) :
    ∀ o ∈ (runFold wbStep awb items).2.1, alGet o.metadata "AwbEnable" = some awb := by
  induction items with
  | nil => intro o ho; simp [runFold] at ho
  | cons i rest ih =>
      intro o ho
      simp only [runFold, List.mem_cons] at ho
      have hlatch : (wbStep awb i).1 = awb := wbStep_latch awb i (h i (by simp))
      rcases ho with ho | ho
      · subst ho; rw [wbStep_metadata, hlatch]
      · rw [hlatch] at ho
        exact ih (fun j hj => h j (by simp [hj])) o ho

theorem expRun_keeps (ae : Val) (items : List Item)
    (h : ∀ i ∈ items, alGet i.controls "AeEnable" = none) :
    ∀ o ∈ (runFold expStep ae items).2.1, alGet o.metadata "AeEnable" = some ae := by
  induction items with
  | nil => intro o ho; simp [runFold] at ho
  | cons i rest ih =>
      intro o ho
      simp only [runFold, List.mem_cons] at ho
      have hlatch : (expStep ae i).1 = ae := expStep_latch ae i (h i (by simp))
      rcases ho with ho | ho
      · subst ho; rw [expStep_metadata, hlatch]
      · rw [hlatch] at ho
        exact ih (fun j hj => h j (by simp [hj])) o ho

theorem focusRun_keeps (cf : Val) (hcf : cf.truthy = true) (af : Val) (items : List Item)
    (h : ∀ i ∈ items, alGet i.controls "AfEnable" = none ∧
        alGet i.controls "LensPosition" = none) :
    ∀ o ∈ (runFold (focusStep cf) af items).2.1,
      alGet o.metadata "AfEnable" = some af := by
  induction items with
  | nil => intro o ho; simp [runFold] at ho
  | cons i rest ih =>
      intro o ho
      simp only [runFold, List.mem_cons] at ho
      have hlatch : (focusStep cf af i).1 = af :=
        focusStep_latch cf af i (h i (by simp)).1 (h i (by simp)).2
      rcases ho with ho | ho
      · subst ho; rw [focusStep_metadata cf af i hcf, hlatch]
      · rw [hlatch] at ho
        exact ih (fun j hj => h j (by simp [hj])) o ho

/-- C10's focus clause is wrong as stated: `af_enable` is initialized to the
raw truthy probe value (`mdata.get('AfState', False) or mdata.get('AfMode',
False)`), not to the boolean `true`. -/
def probeIntState : Dict := [("AfState", Val.vq 2)]

/-- Claim C10, counterexample: on a device whose probe reports
`AfState = 2`, the Focus stage latches and writes `AfEnable = 2` (the raw
truthy probe value) into the first frame's metadata, not the boolean
`true`. -/
theorem defaultEnabledCex :
    focusInit probeIntState = Val.vq 2 ∧
    (focusInit probeIntState).truthy = true ∧
    alGet ((focusStep (focusInit probeIntState) (focusInit probeIntState)
      (mkItem 0 [])).2.1).metadata "AfEnable" = some (Val.vq 2) ∧
    some (Val.vq 2) ≠ some (Val.vb true) := by decide

/-- Claim C10 (amended): before any relevant control update has arrived,
the latched enable flags default to enabled — the White-Balance and
Exposure stages write `AwbEnable = true` and `AeEnable = true` into every
frame's metadata; on a focus-capable device the Focus stage issues exactly
one auto-mode-plus-trigger control call before its first frame and writes
`AfEnable` equal to the (truthy) capability-probe value — the boolean
`true` only when the probe value is that boolean — into every frame's
metadata. -/
theorem defaultEnabled :
    (∀ items : List Item, (∀ i ∈ items, alGet i.controls "AwbEnable" = none) →
        ∀ o ∈ (runFold wbStep (Val.vb true) items).2.1,
          alGet o.metadata "AwbEnable" = some (Val.vb true))
    ∧ (∀ items : List Item, (∀ i ∈ items, alGet i.controls "AeEnable" = none) →
        ∀ o ∈ (runFold expStep (Val.vb true) items).2.1,
          alGet o.metadata "AeEnable" = some (Val.vb true))
    ∧ (∀ probe : Dict, (focusInit probe).truthy = true →
        focusInitCalls (focusInit probe) =
          [[("AfMode", Val.vmodeAuto), ("AfTrigger", Val.vtriggerStart)]] ∧
        ∀ items : List Item,
          (∀ i ∈ items, alGet i.controls "AfEnable" = none ∧
              alGet i.controls "LensPosition" = none) →
          ∀ o ∈ (runFold (focusStep (focusInit probe)) (focusInit probe) items).2.1,
            alGet o.metadata "AfEnable" = some (focusInit probe)) := by
  refine ⟨wbRun_keeps (Val.vb true), expRun_keeps (Val.vb true), ?_⟩
  intro probe hcf
  exact ⟨by simp [focusInitCalls, hcf],
    fun items h => focusRun_keeps (focusInit probe) hcf (focusInit probe) items h⟩

def probeBoolFocus : Dict := [("AfMode", Val.vb true)]

theorem defaultEnabled_witness :
    ((∀ i ∈ [itemGainsOnly], alGet i.controls "AwbEnable" = none) ∧
      ∀ o ∈ (runFold wbStep (Val.vb true) [itemGainsOnly]).2.1,
        alGet o.metadata "AwbEnable" = some (Val.vb true)) ∧
    ((∀ i ∈ [itemGainsOnly], alGet i.controls "AeEnable" = none) ∧
      ∀ o ∈ (runFold expStep (Val.vb true) [itemGainsOnly]).2.1,
        alGet o.metadata "AeEnable" = some (Val.vb true)) ∧
    ((focusInit probeBoolFocus).truthy = true ∧
      focusInitCalls (focusInit probeBoolFocus) =
        [[("AfMode", Val.vmodeAuto), ("AfTrigger", Val.vtriggerStart)]] ∧
      ∀ o ∈ (runFold (focusStep (focusInit probeBoolFocus)) (focusInit probeBoolFocus)
          [itemGainsOnly]).2.1,
        alGet o.metadata "AfEnable" = some (focusInit probeBoolFocus)) :=
  ⟨⟨by decide, defaultEnabled.1 [itemGainsOnly] (by decide)⟩,
   ⟨by decide, defaultEnabled.2.1 [itemGainsOnly] (by decide)⟩,
   ⟨by decide, (defaultEnabled.2.2 probeBoolFocus (by decide)).1,
     (defaultEnabled.2.2 probeBoolFocus (by decide)).2 [itemGainsOnly] (by decide)⟩⟩

/-! ## Crop stage geometry (C7) -/

theorem imgGet_setImage_self (item : Item) (k : String) (img : NDImage) (e : ImgEntry) :
    imgGet (setImage item k e img) k = some { e with image := img } := by
  simp [imgGet, setImage, alGet_alInsert_self]

/-- Claim C7: with the crop stage active, the latched target smaller than
the image in either dimension, and no sizing update on this frame, the
active image entry is replaced by the centered axis-aligned sub-rectangle
of size `min(image, target)` per dimension, placed at the
truncated-integer centering offsets `(dimension - size) / 2`; all other
fields of the entry and the latched state are unchanged. -/
theorem cropCentered (st : FitState) (item : Item) (e : ImgEntry)
    (hen : st.enabled = true)
    (hfm : alGet item.controls "FitMode" = none)
    (hw : alGet item.controls "Width" = none)
    (hh : alGet item.controls "Height" = none)
    (he : imgGet item (activeKey item) = some e)
    (hsm : st.setW < e.image.w ∨ st.setH < e.image.h) :
    fitCroppedStep st item = Except.ok (st,
      setImage item (activeKey item) e
        ⟨min e.image.h st.setH, min e.image.w st.setW,
         e.image.oy + (e.image.h - min e.image.h st.setH) / 2,
         e.image.ox + (e.image.w - min e.image.w st.setW) / 2⟩) ∧
    imgGet (setImage item (activeKey item) e
        ⟨min e.image.h st.setH, min e.image.w st.setW,
         e.image.oy + (e.image.h - min e.image.h st.setH) / 2,
         e.image.ox + (e.image.w - min e.image.w st.setW) / 2⟩) (activeKey item) =
      some { e with image :=
        ⟨min e.image.h st.setH, min e.image.w st.setW,
         e.image.oy + (e.image.h - min e.image.h st.setH) / 2,
         e.image.ox + (e.image.w - min e.image.w st.setW) / 2⟩ } := by
  obtain ⟨en, sw, sh⟩ := st
  simp only at hen hsm ⊢
  subst hen
  have hch : min e.image.h sh ≤ e.image.h := Nat.min_le_left _ _
  have hcw : min e.image.w sw ≤ e.image.w := Nat.min_le_left _ _
  have hcond : min e.image.w sw < e.image.w ∨ min e.image.h sh < e.image.h := by
    rcases hsm with h | h
    · exact Or.inl (by omega)
    · exact Or.inr (by omega)
  constructor
  · simp only [fitCroppedStep, hfm, hw, hh, getNatCtrl, he, if_true, NDImage.slice]
    rw [if_pos hcond]
    have h1 : (e.image.h + min e.image.h sh) / 2 -
        (e.image.h - min e.image.h sh) / 2 = min e.image.h sh := by omega
    have h2 : (e.image.w + min e.image.w sw) / 2 -
        (e.image.w - min e.image.w sw) / 2 = min e.image.w sw := by omega
    rw [h1, h2]
  · exact imgGet_setImage_self item (activeKey item) _ e

def entry1080 : ImgEntry :=
  ⟨⟨1080, 1920, 0, 0⟩, "RGB888", 6220800, (1920, 1080), 5760⟩

def itemCrop : Item :=
  { idx := 5, controls := [], metadata := [], images := [("main", entry1080)], jpeg := false }

def stCrop : FitState := ⟨true, 800, 600⟩

theorem cropCentered_witness :
    (stCrop.enabled = true ∧ alGet itemCrop.controls "FitMode" = none ∧
      alGet itemCrop.controls "Width" = none ∧ alGet itemCrop.controls "Height" = none ∧
      imgGet itemCrop (activeKey itemCrop) = some entry1080 ∧
      (stCrop.setW < entry1080.image.w ∨ stCrop.setH < entry1080.image.h)) ∧
    (fitCroppedStep stCrop itemCrop = Except.ok (stCrop,
        setImage itemCrop (activeKey itemCrop) entry1080 ⟨600, 800, 240, 560⟩) ∧
      imgGet (setImage itemCrop (activeKey itemCrop) entry1080 ⟨600, 800, 240, 560⟩)
          (activeKey itemCrop) =
        some { entry1080 with image := ⟨600, 800, 240, 560⟩ }) :=
  ⟨⟨by decide, by decide, by decide, by decide, by decide, by decide⟩,
    cropCentered stCrop itemCrop entry1080 (by decide) (by decide) (by decide)
      (by decide) (by decide) (by decide)⟩

/-! ## Publisher delta logic (C1, C5, C9) -/

/-- `if len(updates): send(updates)`: the state-update message actually
sent, `none` when the delta map is empty. -/
def optOfDict (d : Dict) : Option Dict := if d.isEmpty then none else some d

/-- The delta map as the amended claim describes it: `AnalogueGain` and
`ExposureTime` are sent as a coupled pair whenever either differs from its
latch; `LensPosition`, `RedGain`, `BlueGain` are each included exactly when
the current value differs from its latch. -/
def deltaSpec (s : PubState) (ag et lpd : Val) (cr cb : Rat) : Dict :=
  (if ag ≠ s.ag ∨ et ≠ s.et then
    [("AnalogueGain", ag), ("ExposureTime", et)] else []) ++
  (if s.lp ≠ lpd then [("LensPosition", lpd)] else []) ++
  (if s.rg ≠ cr then [("RedGain", Val.vq cr)] else []) ++
  (if s.bg ≠ cb then [("BlueGain", Val.vq cb)] else [])

/-- The characterization of one publisher iteration when every lookup it
performs succeeds: `ag`/`et` are the (stripped) metadata's `AnalogueGain` /
`ExposureTime`, `lpd` is `LensPosition` with the `0.0` default, and
`ColourGains` defaults to `(0.0, 0.0)`.  The new latched state always holds
the current values, and the state update sent is exactly `deltaSpec`. -/
theorem publisherStep_spec (s : PubState) (idx : Nat) (md0 : Dict)
    (ag et lpd : Val) (r b : Rat)
    (hag : alGet (stripStats md0) "AnalogueGain" = some ag)
    (het : alGet (stripStats md0) "ExposureTime" = some et)
    (hlp : (alGet (stripStats md0) "LensPosition").getD (Val.vq 0) = lpd)
    (hlp2 : s.lp ≠ lpd → alGet (stripStats md0) "LensPosition" = some lpd)
    (hcg : (alGet (stripStats md0) "ColourGains").getD (Val.vpair 0 0) = Val.vpair r b) :
    publisherStep s idx md0 true =
      ([OutMsg.meta idx (stripStats md0), OutMsg.jpeg idx],
       Except.ok (⟨ag, et, lpd, round2 r, round2 b⟩,
         optOfDict (deltaSpec s ag et lpd (round2 r) (round2 b)))) := by
  cases hca : alGet (stripStats md0) "LensPosition" with
  | none =>
      have hlpd : lpd = Val.vq 0 := by rw [← hlp, hca]; rfl
      have hL : s.lp = lpd := by
        by_contra hn
        rw [hlp2 hn] at hca
        cases hca
      subst hlpd
      by_cases hA : ag = s.ag <;> by_cases hE : et = s.et <;>
        by_cases hR : s.rg = round2 r <;> by_cases hB : s.bg = round2 b <;>
          simp [publisherStep, updAget, updLens, updGains, hag, het, hca, hcg,
                hA, hE, hL, hR, hB, optOfDict, deltaSpec, alInsert] <;>
            (obtain ⟨s1, s2, s3, s4, s5⟩ := s; simp_all)
  | some v =>
      have hv : v = lpd := by rw [← hlp, hca]; rfl
      subst hv
      by_cases hA : ag = s.ag <;> by_cases hE : et = s.et <;>
        by_cases hL : s.lp = v <;> by_cases hR : s.rg = round2 r <;>
          by_cases hB : s.bg = round2 b <;>
            simp [publisherStep, updAget, updLens, updGains, hag, het, hca, hcg,
                  hA, hE, hL, hR, hB, optOfDict, deltaSpec, alInsert] <;>
              (obtain ⟨s1, s2, s3, s4, s5⟩ := s; simp_all)

/-- C1's claim fails on the coupled pair: current `AnalogueGain` differs
from its latch but `ExposureTime` equals its latch (both `0`). -/
def mdPairCex : Dict := [("AnalogueGain", Val.vq 1), ("ExposureTime", Val.vq 0)]

/-- Claim C1, counterexample: with `AnalogueGain` changed and
`ExposureTime` equal to its latched copy, the state-update message still
contains `ExposureTime` — the delta is not restricted to the keys whose
current value differs from the Publisher's latched copy. -/
theorem deltaOnlyChangedCex :
    (publisherStep pubInit 0 mdPairCex true).2 =
      Except.ok (⟨Val.vq 1, Val.vq 0, Val.vq 0, 0, 0⟩,
        some [("AnalogueGain", Val.vq 1), ("ExposureTime", Val.vq 0)]) ∧
    alGet (stripStats mdPairCex) "ExposureTime" = some (Val.vq 0) ∧
    pubInit.et = Val.vq 0 ∧
    alGet [("AnalogueGain", Val.vq 1), ("ExposureTime", Val.vq 0)] "ExposureTime" =
      some (Val.vq 0) := by decide

/-- Claim C1 (amended): every state-update message the Publisher sends on
the control-plane channel is the delta map `deltaSpec`: `AnalogueGain` and
`ExposureTime` are included as a coupled pair whenever either differs from
its latched copy (both latches then updated, even if one value was
unchanged); `LensPosition` (defaulting to `0.0` when absent) and the colour
gains rounded to 2 decimal places are included exactly when they differ
from their latches; after the frame every latch holds the current value,
and nothing is sent when the delta map is empty. -/
theorem deltaPairAndLatch (s : PubState) (idx : Nat) (md0 : Dict)
    (ag et lpd : Val) (r b : Rat)
    (hag : alGet (stripStats md0) "AnalogueGain" = some ag)
    (het : alGet (stripStats md0) "ExposureTime" = some et)
    (hlp : (alGet (stripStats md0) "LensPosition").getD (Val.vq 0) = lpd)
    (hlp2 : s.lp ≠ lpd → alGet (stripStats md0) "LensPosition" = some lpd)
    (hcg : (alGet (stripStats md0) "ColourGains").getD (Val.vpair 0 0) = Val.vpair r b) :
    publisherStep s idx md0 true =
      ([OutMsg.meta idx (stripStats md0), OutMsg.jpeg idx],
       Except.ok (⟨ag, et, lpd, round2 r, round2 b⟩,
         optOfDict (deltaSpec s ag et lpd (round2 r) (round2 b)))) :=
  publisherStep_spec s idx md0 ag et lpd r b hag het hlp hlp2 hcg

def mdAllChanged : Dict :=
  [("AnalogueGain", Val.vq 2), ("ExposureTime", Val.vq 100),
   ("LensPosition", Val.vq 3), ("ColourGains", Val.vpair (mkRat 5 2) (mkRat 3 2)),
   ("Bcm2835StatsOutput", Val.vs "blob")]

theorem deltaPairAndLatch_witness :
    (alGet (stripStats mdAllChanged) "AnalogueGain" = some (Val.vq 2) ∧
      alGet (stripStats mdAllChanged) "ExposureTime" = some (Val.vq 100) ∧
      (alGet (stripStats mdAllChanged) "LensPosition").getD (Val.vq 0) = Val.vq 3 ∧
      (pubInit.lp ≠ Val.vq 3 →
        alGet (stripStats mdAllChanged) "LensPosition" = some (Val.vq 3)) ∧
      (alGet (stripStats mdAllChanged) "ColourGains").getD (Val.vpair 0 0) =
        Val.vpair (mkRat 5 2) (mkRat 3 2)) ∧
    publisherStep pubInit 4 mdAllChanged true =
      ([OutMsg.meta 4 (stripStats mdAllChanged), OutMsg.jpeg 4],
       Except.ok (⟨Val.vq 2, Val.vq 100, Val.vq 3, round2 (mkRat 5 2), round2 (mkRat 3 2)⟩,
         optOfDict (deltaSpec pubInit (Val.vq 2) (Val.vq 100) (Val.vq 3)
           (round2 (mkRat 5 2)) (round2 (mkRat 3 2))))) :=
  ⟨⟨by decide, by decide, by decide, by decide, by decide⟩,
    deltaPairAndLatch pubInit 4 mdAllChanged (Val.vq 2) (Val.vq 100) (Val.vq 3)
      (mkRat 5 2) (mkRat 3 2) (by decide) (by decide) (by decide) (by decide) (by decide)⟩

/-- C9's metadata without `AnalogueGain`: the publish messages still go
out before the failing lookup. -/
def mdNoGain : Dict := [("SensorTimestamp", Val.vq 5)]

/-- Metadata satisfying the claim's stated precondition (`AnalogueGain`,
`ExposureTime`, `LensPosition` all present) whose `ColourGains` is not a
pair, so the unpack at line 221 still raises. -/
def mdBadGains : Dict :=
  [("AnalogueGain", Val.vq 1), ("ExposureTime", Val.vq 10),
   ("LensPosition", Val.vq 0), ("ColourGains", Val.vq 7)]

/-- Claim C9, counterexample, in two parts.  First: a frame whose metadata
lacks `AnalogueGain` does not fail *rather than* being published — both
publish-channel messages are sent first, and only then does the Publisher
fail (suppressing only the state update).  Second: the error branch is not
unreachable under the claim's stated precondition — with `AnalogueGain`,
`ExposureTime` and `LensPosition` all present, a `ColourGains` value that
is not a pair still reaches it. -/
theorem unguardedLookupCex :
    (publisherStep pubInit 3 mdNoGain true =
        ([OutMsg.meta 3 (stripStats mdNoGain), OutMsg.jpeg 3], Except.error ()) ∧
      [OutMsg.meta 3 (stripStats mdNoGain), OutMsg.jpeg 3] ≠ ([] : List OutMsg)) ∧
    (alGet (stripStats mdBadGains) "AnalogueGain" = some (Val.vq 1) ∧
      alGet (stripStats mdBadGains) "ExposureTime" = some (Val.vq 10) ∧
      alGet (stripStats mdBadGains) "LensPosition" = some (Val.vq 0) ∧
      (publisherStep pubInit 5 mdBadGains true).2 = Except.error ()) :=
  ⟨⟨by decide, by decide⟩, by decide, by decide, by decide, by decide⟩

theorem updGains_nonpair (md : Dict) (s : PubState) (u : Dict)
    (h : ((alGet md "ColourGains").getD (Val.vpair 0 0)).isPair = false) :
    updGains s md u = Except.error () := by
  cases hc : (alGet md "ColourGains").getD (Val.vpair 0 0) <;>
    rw [hc] at h <;> simp [Val.isPair] at h <;> simp [updGains, hc]

/-- Any frame on which one of the publisher's per-frame reads fails —
`AnalogueGain` absent, `ExposureTime` absent, `LensPosition` absent while
the latch differs from the `0.0` default, or `ColourGains` present but not
a pair — still sends both publish-channel messages and then errors. -/
theorem publisherStep_violation (s : PubState) (idx : Nat) (md0 : Dict)
    (h : alGet (stripStats md0) "AnalogueGain" = none ∨
         alGet (stripStats md0) "ExposureTime" = none ∨
         (alGet (stripStats md0) "LensPosition" = none ∧ s.lp ≠ Val.vq 0) ∨
         ((alGet (stripStats md0) "ColourGains").getD (Val.vpair 0 0)).isPair = false) :
    publisherStep s idx md0 true =
      ([OutMsg.meta idx (stripStats md0), OutMsg.jpeg idx], Except.error ()) := by
  cases hag : alGet (stripStats md0) "AnalogueGain" with
  | none => simp [publisherStep, updAget, hag]
  | some ag =>
    cases het : alGet (stripStats md0) "ExposureTime" with
    | none =>
        by_cases hA : ag = s.ag <;> simp [publisherStep, updAget, hag, het, hA]
    | some et =>
      rcases h with h | h | h | h
      · rw [hag] at h; cases h
      · rw [het] at h; cases h
      · obtain ⟨hca, hL⟩ := h
        by_cases hA : ag = s.ag <;> by_cases hE : et = s.et <;>
          simp [publisherStep, updAget, updLens, hag, het, hca, hA, hE, hL]
      · cases ha : updAget s (stripStats md0) [] with
        | error e => simp [publisherStep, ha]
        | ok p =>
          obtain ⟨s1, u1⟩ := p
          cases hl : updLens s1 (stripStats md0) u1 with
          | error e => simp [publisherStep, ha, hl]
          | ok q =>
            obtain ⟨s2, u2⟩ := q
            simp [publisherStep, ha, hl, updGains_nonpair (stripStats md0) s2 u2 h]

/-- Claim C9 (amended): the Publisher looks up `AnalogueGain` and
`ExposureTime` unguarded on every frame and `LensPosition` unguarded on any
frame where its current value (default `0.0`) differs from the latch; under
the precondition that those keys are present on such frames and that
`ColourGains`, when present, is a pair (the counterexample shows a present
non-pair `ColourGains` also reaches the error branch), the error branch is
unreachable; and *every* frame violating the precondition makes the
Publisher fail only *after* the frame's metadata and image messages have
been sent, so the state update is suppressed but never the publish. -/
theorem unguardedLookups :
    (∀ (s : PubState) (idx : Nat) (md0 : Dict) (ag et lpd : Val) (r b : Rat),
      alGet (stripStats md0) "AnalogueGain" = some ag →
      alGet (stripStats md0) "ExposureTime" = some et →
      (alGet (stripStats md0) "LensPosition").getD (Val.vq 0) = lpd →
      (s.lp ≠ lpd → alGet (stripStats md0) "LensPosition" = some lpd) →
      (alGet (stripStats md0) "ColourGains").getD (Val.vpair 0 0) = Val.vpair r b →
      ∃ p, (publisherStep s idx md0 true).2 = Except.ok p)
    ∧ (∀ (s : PubState) (idx : Nat) (md0 : Dict),
      (alGet (stripStats md0) "AnalogueGain" = none ∨
       alGet (stripStats md0) "ExposureTime" = none ∨
       (alGet (stripStats md0) "LensPosition" = none ∧ s.lp ≠ Val.vq 0) ∨
       ((alGet (stripStats md0) "ColourGains").getD (Val.vpair 0 0)).isPair = false) →
      publisherStep s idx md0 true =
        ([OutMsg.meta idx (stripStats md0), OutMsg.jpeg idx], Except.error ())) := by
  constructor
  · intro s idx md0 ag et lpd r b hag het hlp hlp2 hcg
    exact ⟨_, by rw [publisherStep_spec s idx md0 ag et lpd r b hag het hlp hlp2 hcg]⟩
  · exact publisherStep_violation

def mdNoExp : Dict := [("AnalogueGain", Val.vq 1)]

def mdN0Lens : Dict := [("AnalogueGain", Val.vq 1), ("ExposureTime", Val.vq 10)]

/-- A publisher state whose latched lens position differs from the `0.0`
default, so a frame lacking `LensPosition` violates the precondition. -/
def pubLensState : PubState := ⟨Val.vq 1, Val.vq 10, Val.vq 5, 0, 0⟩

theorem unguardedLookups_witness :
    ((alGet (stripStats mdAllChanged) "AnalogueGain" = some (Val.vq 2) ∧
        alGet (stripStats mdNoGain) "AnalogueGain" = none) ∧
      ∃ p, (publisherStep pubInit 7 mdAllChanged true).2 = Except.ok p) ∧
    publisherStep pubInit 8 mdNoGain true =
      ([OutMsg.meta 8 (stripStats mdNoGain), OutMsg.jpeg 8], Except.error ()) ∧
    publisherStep pubInit 9 mdNoExp true =
      ([OutMsg.meta 9 (stripStats mdNoExp), OutMsg.jpeg 9], Except.error ()) ∧
    publisherStep pubLensState 10 mdN0Lens true =
      ([OutMsg.meta 10 (stripStats mdN0Lens), OutMsg.jpeg 10], Except.error ()) ∧
    publisherStep pubInit 11 mdBadGains true =
      ([OutMsg.meta 11 (stripStats mdBadGains), OutMsg.jpeg 11], Except.error ()) :=
  ⟨⟨⟨by decide, by decide⟩,
      unguardedLookups.1 pubInit 7 mdAllChanged (Val.vq 2) (Val.vq 100) (Val.vq 3)
        (mkRat 5 2) (mkRat 3 2) (by decide) (by decide) (by decide) (by decide) (by decide)⟩,
    unguardedLookups.2 pubInit 8 mdNoGain (Or.inl (by decide)),
    unguardedLookups.2 pubInit 9 mdNoExp (Or.inr (Or.inl (by decide))),
    unguardedLookups.2 pubLensState 10 mdN0Lens
      (Or.inr (Or.inr (Or.inl ⟨by decide, by decide⟩))),
    unguardedLookups.2 pubInit 11 mdBadGains (Or.inr (Or.inr (Or.inr (by decide))))⟩

/-- The publisher's per-frame reads, named: `ag`/`et` are the metadata's
`AnalogueGain`/`ExposureTime` (present), `lpd` is `LensPosition` with its
`0.0` default, and the `ColourGains` pair (defaulted) rounds to
`cr`/`cb`. -/
def readsAs (md : Dict) (ag et lpd : Val) (cr cb : Rat) : Prop :=
  alGet (stripStats md) "AnalogueGain" = some ag ∧
  alGet (stripStats md) "ExposureTime" = some et ∧
  (alGet (stripStats md) "LensPosition").getD (Val.vq 0) = lpd ∧
  ∃ r b : Rat,
    (alGet (stripStats md) "ColourGains").getD (Val.vpair 0 0) = Val.vpair r b ∧
    round2 r = cr ∧ round2 b = cb

theorem pubSend_requires_change (s : PubState) (idx : Nat) (md : Dict)
    (ag et lpd : Val) (cr cb : Rat) (s' : PubState) (u : Dict)
    (hra : readsAs md ag et lpd cr cb)
    (hstep : (publisherStep s idx md true).2 = Except.ok (s', some u)) :
    ag ≠ s.ag ∨ et ≠ s.et ∨ lpd ≠ s.lp ∨ cr ≠ s.rg ∨ cb ≠ s.bg := by
  obtain ⟨hag, het, hlp, r, b, hcg, hr, hb⟩ := hra
  by_contra hn
  push_neg at hn
  obtain ⟨h1, h2, h3, h4, h5⟩ := hn
  have hspec := publisherStep_spec s idx md ag et lpd r b hag het hlp
    (fun hne => absurd h3.symm hne) hcg
  rw [hspec] at hstep
  simp [deltaSpec, optOfDict, h1, h2, h3, h4, h5, hr, hb] at hstep

theorem publisherStep_lensErr (s : PubState) (idx : Nat) (md : Dict) (ag et : Val)
    (hag : alGet (stripStats md) "AnalogueGain" = some ag)
    (het : alGet (stripStats md) "ExposureTime" = some et)
    (hca : alGet (stripStats md) "LensPosition" = none)
    (hL : s.lp ≠ Val.vq 0) :
    (publisherStep s idx md true).2 = Except.error () := by
  by_cases hA : ag = s.ag <;> by_cases hE : et = s.et <;>
    simp [publisherStep, updAget, updLens, hag, het, hca, hA, hE, hL]

theorem publishRun_steady (ag et lpd : Val) (cr cb : Rat) (mds : List Dict)
    (h : ∀ md ∈ mds, readsAs md ag et lpd cr cb) :
    publishRun ⟨ag, et, lpd, cr, cb⟩ mds = Except.ok (⟨ag, et, lpd, cr, cb⟩, 0) := by
  induction mds with
  | nil => rfl
  | cons md rest ih =>
      obtain ⟨hag, het, hlp, r, b, hcg, hr, hb⟩ := h md (by simp)
      have hspec := publisherStep_spec ⟨ag, et, lpd, cr, cb⟩ 0 md ag et lpd r b
        hag het hlp (fun hne => absurd rfl hne) hcg
      simp only [publishRun, hspec, deltaSpec, hr, hb]
      simp only [ne_eq, not_true_eq_false, or_self, if_neg, ite_self]
      simp [optOfDict, ih (fun j hj => h j (by simp [hj]))]

theorem publishRun_bound_aux (s : PubState) (mds : List Dict) (ag et lpd : Val)
    (cr cb : Rat) (h : ∀ md ∈ mds, readsAs md ag et lpd cr cb)
    (sf : PubState) (k : Nat) (hrun : publishRun s mds = Except.ok (sf, k)) :
    k ≤ 1 := by
  cases mds with
  | nil =>
      simp only [publishRun, Except.ok.injEq, Prod.mk.injEq] at hrun
      omega
  | cons md rest =>
      obtain ⟨hag, het, hlp, r, b, hcg, hrr, hbb⟩ := h md (by simp)
      have hrest : ∀ j ∈ rest, readsAs j ag et lpd cr cb :=
        fun j hj => h j (by simp [hj])
      have hsteady := publishRun_steady ag et lpd cr cb rest hrest
      cases hca : alGet (stripStats md) "LensPosition" with
      | some v =>
          have hv : v = lpd := by rw [← hlp, hca]; rfl
          have hspec := publisherStep_spec s 0 md ag et lpd r b hag het hlp
            (fun _ => by rw [hca, hv]) hcg
          rw [publishRun, hspec] at hrun
          simp only [hrr, hbb] at hrun
          rw [hsteady] at hrun
          cases hopt : optOfDict (deltaSpec s ag et lpd cr cb) <;>
            (rw [hopt] at hrun; simp at hrun; omega)
      | none =>
          have hlpd : lpd = Val.vq 0 := by rw [← hlp, hca]; rfl
          by_cases hsl : s.lp = Val.vq 0
          · have hspec := publisherStep_spec s 0 md ag et lpd r b hag het hlp
              (fun hne => absurd (by rw [hsl, hlpd]) hne) hcg
            rw [publishRun, hspec] at hrun
            simp only [hrr, hbb] at hrun
            rw [hsteady] at hrun
            cases hopt : optOfDict (deltaSpec s ag et lpd cr cb) <;>
              (rw [hopt] at hrun; simp at hrun; omega)
          · have herr := publisherStep_lensErr s 0 md ag et hag het hca hsl
            rw [publishRun, herr] at hrun
            cases hrun

/-- Claim C5: the Publisher sends a state-update message only on a frame
where at least one of the five tracked quantities (`AnalogueGain`,
`ExposureTime`, `LensPosition` with its `0.0` default, and the rounded
colour gains) differs from its latched copy; and over any run of frames
whose tracked values are all identical, at most one state-update message is
sent — zero after the first frame of the run. -/
theorem deltaOnlyOnChange :
    (∀ (s : PubState) (idx : Nat) (md : Dict) (ag et lpd : Val) (cr cb : Rat)
        (s' : PubState) (u : Dict),
      readsAs md ag et lpd cr cb →
      (publisherStep s idx md true).2 = Except.ok (s', some u) →
      ag ≠ s.ag ∨ et ≠ s.et ∨ lpd ≠ s.lp ∨ cr ≠ s.rg ∨ cb ≠ s.bg)
    ∧ (∀ (s : PubState) (mds : List Dict) (ag et lpd : Val) (cr cb : Rat)
        (sf : PubState) (k : Nat),
      (∀ md ∈ mds, readsAs md ag et lpd cr cb) →
      publishRun s mds = Except.ok (sf, k) → k ≤ 1) :=
  ⟨pubSend_requires_change,
   fun s mds ag et lpd cr cb sf k h hrun =>
     publishRun_bound_aux s mds ag et lpd cr cb h sf k hrun⟩

def mdSteady : Dict :=
  [("AnalogueGain", Val.vq 1), ("ExposureTime", Val.vq 50),
   ("ColourGains", Val.vpair (mkRat 2 1) (mkRat 2 1))]

theorem deltaOnlyOnChange_witness :
    ((readsAs mdSteady (Val.vq 1) (Val.vq 50) (Val.vq 0) 2 2 ∧
        (publisherStep pubInit 0 mdSteady true).2 =
          Except.ok (⟨Val.vq 1, Val.vq 50, Val.vq 0, 2, 2⟩,
            some [("AnalogueGain", Val.vq 1), ("ExposureTime", Val.vq 50),
                  ("RedGain", Val.vq 2), ("BlueGain", Val.vq 2)])) ∧
      (Val.vq 1 ≠ pubInit.ag ∨ Val.vq 50 ≠ pubInit.et ∨ Val.vq 0 ≠ pubInit.lp ∨
        (2 : Rat) ≠ pubInit.rg ∨ (2 : Rat) ≠ pubInit.bg)) ∧
    ((∀ md ∈ [mdSteady, mdSteady, mdSteady],
        readsAs md (Val.vq 1) (Val.vq 50) (Val.vq 0) 2 2) ∧
      publishRun pubInit [mdSteady, mdSteady, mdSteady] =
        Except.ok (⟨Val.vq 1, Val.vq 50, Val.vq 0, 2, 2⟩, 1) ∧
      1 ≤ 1) := by
  have hra : readsAs mdSteady (Val.vq 1) (Val.vq 50) (Val.vq 0) 2 2 :=
    ⟨by decide, by decide, by decide, mkRat 2 1, mkRat 2 1,
     by decide, by decide, by decide⟩
  have hall : ∀ md ∈ [mdSteady, mdSteady, mdSteady],
      readsAs md (Val.vq 1) (Val.vq 50) (Val.vq 0) 2 2 := by
    intro md hm
    simp at hm
    rw [hm]
    exact hra
  refine ⟨⟨⟨hra, by decide⟩, ?_⟩, hall, by decide, ?_⟩
  · exact deltaOnlyOnChange.1 pubInit 0 mdSteady (Val.vq 1) (Val.vq 50) (Val.vq 0) 2 2
      ⟨Val.vq 1, Val.vq 50, Val.vq 0, 2, 2⟩
      [("AnalogueGain", Val.vq 1), ("ExposureTime", Val.vq 50),
       ("RedGain", Val.vq 2), ("BlueGain", Val.vq 2)] hra (by decide)
  · exact deltaOnlyOnChange.2 pubInit [mdSteady, mdSteady, mdSteady]
      (Val.vq 1) (Val.vq 50) (Val.vq 0) 2 2
      ⟨Val.vq 1, Val.vq 50, Val.vq 0, 2, 2⟩ 1 hall (by decide)

/-! ## Capture-stage `ImageSize` selection (C2) -/

/-- The `ImageSize` metadata value produced by one capture iteration. -/
def capturedImageSize (r : Except Unit (List FrameIn × Item)) : Option Val :=
  match r with
  | Except.ok (_, item') => alGet item'.metadata "ImageSize"
  | Except.error _ => none

def camDual : Camera :=
  { model := "imx708"
    config := [("main", ⟨(640, 480), "RGB888", 921600, 1920⟩),
               ("raw", ⟨(4608, 2592), "SBGGR10", 23887872, 9216⟩)] }

def frameDual : FrameIn :=
  { meta := [("AnalogueGain", Val.vq 1)]
    bufs := [⟨480, 640, 0, 0⟩, ⟨2592, 2304, 0, 0⟩] }

/-- Claim C2 evaluated at the failing input: with a raw buffer among the
requested logical buffers, the Capture stage still stores the `main`
configuration's size under `ImageSize`, because `'raw' in item` is tested
before any image entry has been attached to the fresh frame record, so the
raw branch can never be taken. -/
theorem captureImageSizeBug :
    "raw" ∈ ["main", "raw"] ∧
    capturedImageSize (captureStep camDual ["main", "raw"] [frameDual] (mkItem 0 [])) =
      some (Val.vsize 640 480) ∧
    cfgGet camDual "main" = some ⟨(640, 480), "RGB888", 921600, 1920⟩ ∧
    cfgGet camDual "raw" = some ⟨(4608, 2592), "SBGGR10", 23887872, 9216⟩ ∧
    Val.vsize 640 480 ≠ Val.vsize 4608 2592 := by decide

/-! ## End-to-end ordinal contiguity (C6) -/

theorem runP_idx {σ : Type} (step : σ → Item → Except Unit (σ × Item))
    (hstep : ∀ s i s' i', step s i = Except.ok (s', i') → i'.idx = i.idx)
    (l : List Item) (s : σ) (s' : σ) (out : List Item)
    (h : runP step s l = Except.ok (s', out)) :
    out.map (fun i => i.idx) = l.map (fun i => i.idx) := by
  induction l generalizing s s' out with
  | nil =>
      simp only [runP, Except.ok.injEq, Prod.mk.injEq] at h
      rw [← h.2]
  | cons i rest ih =>
      simp only [runP] at h
      split at h
      · cases h
      · rename_i s1 i1 h1
        split at h
        · cases h
        · rename_i s2 os h2
          simp only [Except.ok.injEq, Prod.mk.injEq] at h
          rw [← h.2]
          simp only [List.map_cons]
          rw [hstep s i s1 i1 h1, ih s1 s2 os h2]

theorem captureStep_idx (cam : Camera) (arrays : List String) (fs : List FrameIn)
    (i : Item) (fs' : List FrameIn) (i' : Item)
    (h : captureStep cam arrays fs i = Except.ok (fs', i')) : i'.idx = i.idx := by
  cases fs with
  | nil => cases h
  | cons f fs0 =>
      simp only [captureStep] at h
      cases hc : cfgGet cam (if (imgGet i "raw").isSome then "raw" else "main") with
      | none => rw [hc] at h; cases h
      | some cfg =>
          rw [hc] at h
          cases hb : buildEntries cam arrays f.bufs with
          | error e => rw [hb] at h; cases h
          | ok entries =>
              rw [hb] at h
              simp only [Except.ok.injEq, Prod.mk.injEq] at h
              rw [← h.2]

theorem focusStep_idx (cf af : Val) (i : Item) :
    ((focusStep cf af i).2.1).idx = i.idx := by
  simp only [focusStep]
  split <;> rfl

theorem fitCroppedStep_idx (st : FitState) (i : Item) (st' : FitState) (i' : Item)
    (h : fitCroppedStep st i = Except.ok (st', i')) : i'.idx = i.idx := by
  simp only [fitCroppedStep] at h
  repeat' split at h
  all_goals (cases h <;> rfl)

theorem fitScaledStep_idx (st : FitState) (i : Item) (st' : FitState) (i' : Item)
    (h : fitScaledStep st i = Except.ok (st', i')) : i'.idx = i.idx := by
  simp only [fitScaledStep] at h
  repeat' split at h
  all_goals (cases h <;> rfl)

theorem encodeStepP_idx (u : Unit) (i : Item) (u' : Unit) (i' : Item)
    (h : encodeStepP u i = Except.ok (u', i')) : i'.idx = i.idx := by
  cases hg : imgGet i (activeKey i) with
  | none =>
      simp only [encodeStepP, encodeStep, hg] at h
      cases h
  | some e =>
      simp only [encodeStepP, encodeStep, hg, Except.ok.injEq, Prod.mk.injEq] at h
      exact h.2 ▸ rfl

theorem pubStepP_idx (s : PubState) (i : Item) (s' : PubState) (i' : Item)
    (h : pubStepP s i = Except.ok (s', i')) : i'.idx = i.idx := by
  cases hg : (publisherStep s i.idx i.metadata i.jpeg).2 with
  | error e =>
      simp only [pubStepP, hg] at h
      cases h
  | ok p =>
      obtain ⟨ps, pu⟩ := p
      simp only [pubStepP, hg, Except.ok.injEq, Prod.mk.injEq] at h
      exact h.2 ▸ rfl

theorem controlFrom_idx (msgss : List (List Dict)) (i : Nat) :
    (controlFrom i msgss).map (fun it => it.idx) = List.range' i msgss.length := by
  induction msgss generalizing i with
  | nil => rfl
  | cons m rest ih => simp [controlFrom, mkItem, List.range', ih]

/-- Claim C6: over any successful pipeline run, the `n`-th published frame
record carries ordinal `n`: ordinals are assigned by the Control Source,
unique, strictly increasing by exactly 1 from 0, and no stage reorders,
drops or duplicates frames. -/
theorem ordinalContiguity (cam : Camera) (arrays : List String) (probe : Dict)
    (frames : List FrameIn) (cropEn scaleEn : Bool) (msgss : List (List Dict))
    (items : List Item)
    (h : pipelineRun cam arrays probe frames cropEn scaleEn msgss = Except.ok items) :
    items.map (fun i => i.idx) = List.range msgss.length := by
  have h0 : (controlSource msgss).map (fun i => i.idx) = List.range msgss.length := by
    rw [controlSource, controlFrom_idx]
    exact (List.range_eq_range' msgss.length).symm
  simp only [pipelineRun] at h
  split at h
  · cases h
  rename_i s1 items1 h1
  have e1 := runP_idx _ (captureStep_idx cam arrays) _ _ _ _ h1
  split at h
  · cases h
  rename_i s2 items2 h2
  have e2 := runP_idx _ (fun s i s' i' hh => by
    simp only [focusStepP, Except.ok.injEq, Prod.mk.injEq] at hh
    exact hh.2 ▸ focusStep_idx (focusInit probe) s i) _ _ _ _ h2
  split at h
  · cases h
  rename_i s3 items3 h3
  have e3 := runP_idx _ (fun s i s' i' hh => by
    simp only [wbStepP, wbStep, Except.ok.injEq, Prod.mk.injEq] at hh
    exact hh.2 ▸ rfl) _ _ _ _ h3
  split at h
  · cases h
  rename_i s4 items4 h4
  have e4 := runP_idx _ (fun s i s' i' hh => by
    simp only [expStepP, expStep, Except.ok.injEq, Prod.mk.injEq] at hh
    exact hh.2 ▸ rfl) _ _ _ _ h4
  split at h
  · cases h
  rename_i s5 items5 h5
  have e5 := runP_idx _ fitCroppedStep_idx _ _ _ _ h5
  split at h
  · cases h
  rename_i s6 items6 h6
  have e6 := runP_idx _ fitScaledStep_idx _ _ _ _ h6
  split at h
  · cases h
  rename_i s7 items7 h7
  have e7 := runP_idx _ encodeStepP_idx _ _ _ _ h7
  split at h
  · cases h
  rename_i s8 items8 h8
  have e8 := runP_idx _ pubStepP_idx _ _ _ _ h8
  cases h
  rw [e8, e7, e6, e5, e4, e3, e2, e1, h0]

def camMain : Camera :=
  { model := "cam0", config := [("main", ⟨(64, 48), "RGB888", 9216, 192⟩)] }

def frameMain : FrameIn :=
  { meta := [("AnalogueGain", Val.vq 1), ("ExposureTime", Val.vq 10),
             ("ColourGains", Val.vpair (mkRat 1 1) (mkRat 1 1))]
    bufs := [⟨48, 64, 0, 0⟩] }

def pipeW : Except Unit (List Item) :=
  pipelineRun camMain ["main"] [] [frameMain, frameMain] false false [[], []]

def itemsW : List Item := pipeW.toOption.getD []

theorem ordinalContiguity_witness :
    pipeW = Except.ok itemsW ∧ itemsW.map (fun i => i.idx) = List.range 2 :=
  ⟨by decide,
    ordinalContiguity camMain ["main"] [] [frameMain, frameMain] false false
      [[], []] itemsW (by decide)⟩

end RCam
